import Mathlib

/-!
Verification of the bsondump streaming BSON reader and renderers.

The development shallowly embeds the Rust sources:
  * `src/iter.rs`   — the length-prefixed record reader (`RawDocumentBufs::next`,
    `BsonSizeError`, the size-bound constants);
  * `src/lib.rs`    — the output-mode dispatcher (`BsonDump::print_json`,
    `print_debug`, `print_debug_document`, `print_debug_array`,
    `print_debug_item`, `print_new_object_header`, `to_bsondump_error`);
  * `src/bsondump.rs` — the size accountant (`CountBytes` for `&str`,
    `RawDocument`, `RawArray` and `RawBsonRef`).

Byte streams are lists of `Nat` (each intended `< 256`; bounds appear as
hypotheses where the arithmetic needs them).  Machine-integer behaviour
(`i32::from_le_bytes`, the `as usize` cast) is made explicit over `Int`/`Nat`.
The external BSON codec (the `bson` crate) is outside the repository: values
already decoded are represented by the tagged union `RawBsonRef` carrying
exactly the data the core reads from them (type tag, string bytes, payload
lengths, raw spans, element lists), and the fallible conversion to extended
JSON (`bson::to_bson` plus rendering) is a parameter of the run functions.
The writer is modelled as the list of chunks written to it, in order.
-/

deriving instance DecidableEq for Except

namespace BsonDump

/-- `MAX_BSON_SIZE` from `src/iter.rs`: `(16 * 1024 * 1024) + (16 * 1024)`. -/
def MAX_BSON_SIZE : Nat := 16 * 1024 * 1024 + 16 * 1024

/-- `MIN_BSON_SIZE` from `src/iter.rs`. -/
def MIN_BSON_SIZE : Nat := 5

/-- `i32::from_le_bytes` on four bytes (little endian, two's complement). -/
def i32FromLeBytes (b0 b1 b2 b3 : Nat) : Int :=
  let u : Nat := b0 + 256 * b1 + 65536 * b2 + 16777216 * b3
  if u < 2147483648 then (u : Int) else (u : Int) - 4294967296

/-- The Rust `as usize` cast of an `i32` on a 64-bit target: a negative
value is reinterpreted modulo `2^64`. -/
def usizeOfI32 (i : Int) : Nat :=
  (if 0 ≤ i then i else i + 18446744073709551616).toNat

/-- The `Display` impl of `BsonSizeError` in `src/iter.rs`:
`write!(f, "({}, {}, {})", MAX_BSON_SIZE, self.size, self.message)`. -/
def bsonSizeErrorDisplay (size : Nat) (message : String) : String :=
  "(" ++ toString MAX_BSON_SIZE ++ ", " ++ toString size ++ ", " ++ message ++ ")"

/-- Modelled from the spec: the structural validation performed by the
external BSON codec when the reader hands it the assembled buffer
(`RawDocumentBuf::from_bytes`, §4.1 step 5).  Missing from `src/`: the codec
is an external collaborator.  Per §3 a document buffer consists of its 4-byte
little-endian length prefix, `length - 4` further bytes, and a terminating
null byte, and the declared length must equal the number of bytes of the
buffer; the codec rejects buffers violating this shape. -/
def fromBytesCheck (bytes : List Nat) : Except String (List Nat) :=
  match bytes with
  | b0 :: b1 :: b2 :: b3 :: _ =>
    if bytes.length < 5 then
      Except.error "document size must be at least 5 bytes"
    else if usizeOfI32 (i32FromLeBytes b0 b1 b2 b3) ≠ bytes.length then
      Except.error "document length does not match buffer length"
    else if bytes.getLast? ≠ some 0 then
      Except.error "document not null terminated"
    else
      Except.ok bytes
  | _ => Except.error "document size must be at least 5 bytes"

/-- Outcome of one call to `RawDocumentBufs::next` (`src/iter.rs`), together
with the stream left unread.  `eos` is `None` (clean end of stream);
`sizeError` carries the fields of `BsonSizeError` (the body is not read, so
the remaining stream is everything after the 4-byte length field); `ioError`
is a failed `read_exact` of the body (`read_exact` consumes the exhausted
source); `docItem` is the assembled buffer as handed to the codec. -/
inductive NextItem where
  | eos : NextItem
  | sizeError (size : Nat) (message : String) (rest : List Nat) : NextItem
  | ioError (rest : List Nat) : NextItem
  | docItem (res : Except String (List Nat)) (rest : List Nat) : NextItem
  deriving DecidableEq

/-- `RawDocumentBufs::next` from `src/iter.rs`, one step on a byte stream.
`read_exact` of the 4-byte length returns `UnexpectedEof` whenever fewer
than 4 bytes remain (whether 0 or 1–3), which the source maps to `None`. -/
def nextRawDoc (s : List Nat) : NextItem :=
  match s with
  | b0 :: b1 :: b2 :: b3 :: rest =>
    let bson_size := usizeOfI32 (i32FromLeBytes b0 b1 b2 b3)
    if bson_size < MIN_BSON_SIZE then
      NextItem.sizeError bson_size "Too small nelly" rest
    else if MAX_BSON_SIZE < bson_size then
      NextItem.sizeError bson_size "Woah nelly" rest
    else if rest.length < bson_size - 4 then
      NextItem.ioError []
    else
      NextItem.docItem
        (fromBytesCheck (b0 :: b1 :: b2 :: b3 :: rest.take (bson_size - 4)))
        (rest.drop (bson_size - 4))
  | _ => NextItem.eos

/-- The item sequence the drivers in `src/lib.rs` pull from the iterator.
Error strings are the `to_string()` of the underlying error (`BsonSizeError`
uses its `Display`).  After a buffer the codec rejects, the reader stands at
the next record boundary and the sequence continues there, as in the source;
after a size-bound or read error the modelled sequence ends — every driver
stops at the first `Err` item (`raw_document_buf?`), so nothing past it is
ever pulled.  Fuel only bounds the recursion: each yielded document consumes
at least 5 bytes, so `s.length` steps always suffice. -/
def rawDocItemsFuel : Nat → List Nat → List (Except String (List Nat))
  | 0, _ => []
  | fuel + 1, s =>
    match nextRawDoc s with
    | NextItem.eos => []
    | NextItem.sizeError size msg _ => [Except.error (bsonSizeErrorDisplay size msg)]
    | NextItem.ioError _ => [Except.error "failed to fill whole buffer"]
    | NextItem.docItem res rest => res :: rawDocItemsFuel fuel rest

/-- The item sequence produced from a whole (finite) byte stream. -/
def rawDocItems (s : List Nat) : List (Except String (List Nat)) :=
  rawDocItemsFuel s.length s

/-!  Decoded values.

`bson::RawBsonRef` from the external codec, as consumed by the size
accountant (`CountBytes for RawBsonRef` in `src/bsondump.rs`) and the debug
renderer (`src/lib.rs`).  Each variant carries exactly what the core reads
from it: strings carry their text (`&str::len()` is the UTF-8 byte length),
binary carries its payload length, documents and arrays carry their element
sequence as the codec's lazy iterator yields it (the listed elements in
order, then optionally the error with which iteration stops) and the byte
length of their raw span (`as_bytes().len()`).  Scalar payloads the core
never inspects (the `f64` of `Double`, the object id bytes, …) are omitted;
`Decimal128` is a fixed 16-byte value, so `dec.bytes().len() = 16`. -/

inductive RawBsonRef where
  | Double : RawBsonRef
  | Str (value : String) : RawBsonRef
  | Array (elems : List RawBsonRef) (iterErr : Option String) (span : Nat) : RawBsonRef
  | Document (elems : List (String × RawBsonRef)) (iterErr : Option String) (span : Nat) :
      RawBsonRef
  | Boolean : RawBsonRef
  | Null : RawBsonRef
  | RegularExpression (pattern options : String) : RawBsonRef
  | JavaScriptCode (code : String) : RawBsonRef
  | JavaScriptCodeWithScope (code : String) (scopeSpan : Nat) : RawBsonRef
  | Int32 : RawBsonRef
  | Int64 : RawBsonRef
  | Timestamp : RawBsonRef
  | Binary (payloadLen : Nat) : RawBsonRef
  | ObjectId : RawBsonRef
  | DateTime : RawBsonRef
  | Symbol (value : String) : RawBsonRef
  | Decimal128 : RawBsonRef
  | Undefined : RawBsonRef
  | MaxKey : RawBsonRef
  | MinKey : RawBsonRef
  | DbPointer : RawBsonRef

/-- `impl CountBytes for &str` (`src/bsondump.rs` lines 77–82):
`4 + self.len() + 1` — i32 length prefix, the UTF-8 bytes, null terminator. -/
def strCountBytes (s : String) : Nat :=
  4 + s.utf8ByteSize + 1

/-- `impl CountBytes for RawBsonRef` (`src/bsondump.rs` lines 96–126).
Documents and arrays use `as_bytes().len()`, i.e. their own raw span
length (`impl CountBytes for RawDocument` / `RawArray`). -/
def countBytes : RawBsonRef → Nat
  | RawBsonRef.Double => 8
  | RawBsonRef.Str s => strCountBytes s
  | RawBsonRef.Array _ _ span => span
  | RawBsonRef.Document _ _ span => span
  | RawBsonRef.Boolean => 1
  | RawBsonRef.Null => 0
  | RawBsonRef.RegularExpression pattern options =>
      strCountBytes pattern + strCountBytes options
  | RawBsonRef.JavaScriptCode code => strCountBytes code
  | RawBsonRef.JavaScriptCodeWithScope code scopeSpan => strCountBytes code + scopeSpan
  | RawBsonRef.Int32 => 4
  | RawBsonRef.Int64 => 8
  | RawBsonRef.Timestamp => 8
  | RawBsonRef.Binary payloadLen => 4 + 1 + payloadLen
  | RawBsonRef.ObjectId => 12
  | RawBsonRef.DateTime => 8
  | RawBsonRef.Symbol s => strCountBytes s
  | RawBsonRef.Decimal128 => 16
  | RawBsonRef.Undefined => 0
  | RawBsonRef.MaxKey => 0
  | RawBsonRef.MinKey => 0
  | RawBsonRef.DbPointer => strCountBytes "" + 12

/-- `bson_ref.element_type() as u8`: the BSON wire type tags of the codec's
`ElementType` enumeration, printed on each debug line. -/
def elementTypeU8 : RawBsonRef → Nat
  | RawBsonRef.Double => 1
  | RawBsonRef.Str _ => 2
  | RawBsonRef.Document _ _ _ => 3
  | RawBsonRef.Array _ _ _ => 4
  | RawBsonRef.Binary _ => 5
  | RawBsonRef.Undefined => 6
  | RawBsonRef.ObjectId => 7
  | RawBsonRef.Boolean => 8
  | RawBsonRef.DateTime => 9
  | RawBsonRef.Null => 10
  | RawBsonRef.RegularExpression _ _ => 11
  | RawBsonRef.DbPointer => 12
  | RawBsonRef.JavaScriptCode _ => 13
  | RawBsonRef.Symbol _ => 14
  | RawBsonRef.JavaScriptCodeWithScope _ _ => 15
  | RawBsonRef.Int32 => 16
  | RawBsonRef.Timestamp => 17
  | RawBsonRef.Int64 => 18
  | RawBsonRef.Decimal128 => 19
  | RawBsonRef.MinKey => 255
  | RawBsonRef.MaxKey => 127

/-- `get_indent` from `src/lib.rs`: `"\t".repeat(indent_level)`. -/
def getIndent (indent_level : Nat) : String :=
  String.mk (List.replicate indent_level (Char.ofNat 9))

/-- The `{type:>4}` format directive: right-align in a field of width 4,
padding with spaces on the left (wider values are kept whole). -/
def padLeft4 (s : String) : String :=
  String.mk (List.replicate (4 - s.length) (Char.ofNat 32)) ++ s

/-- `BsonDump::print_new_object_header` (`src/lib.rs` lines 125–138): two
`writeln!` chunks; `size` is `object.count_bytes()`, passed here already
computed by the caller's object (`RawDocument`/`RawArray` use their span). -/
def printNewObjectHeader (size : Nat) (indent_level : Nat) : List String :=
  [getIndent indent_level ++ "--- new object ---" ++ "\n",
   getIndent (indent_level + 1) ++ "size : " ++ toString size ++ "\n"]

mutual

/-- `BsonDump::print_debug_item` (`src/lib.rs` lines 163–195).  Returns the
chunks written and `some message` if a nested iteration error aborted it
(the chunks written before the error remain written). -/
def printDebugItem (name : String) (bson_ref : RawBsonRef) (indent_level : Nat) :
    List String × Option String :=
  let nameLine := getIndent (indent_level + 2) ++ name ++ "\n"
  let size_of_type := 1
  let size_of_name := name.utf8ByteSize + 1
  let size := size_of_type + size_of_name + countBytes bson_ref
  let typeLine := getIndent (indent_level + 3) ++ "type: " ++
    padLeft4 (toString (elementTypeU8 bson_ref)) ++ " size: " ++ toString size ++ "\n"
  match bson_ref with
  | RawBsonRef.Document elems iterErr span =>
    let inner := printDebugDocument elems iterErr span (indent_level + 3)
    ([nameLine, typeLine] ++ inner.1, inner.2)
  | RawBsonRef.Array elems iterErr span =>
    let inner := printDebugArray elems iterErr span (indent_level + 3)
    ([nameLine, typeLine] ++ inner.1, inner.2)
  | _ => ([nameLine, typeLine], none)
termination_by sizeOf bson_ref
decreasing_by
  all_goals simp_wf
  all_goals cases iterErr
  all_goals simp
  all_goals omega

/-- `BsonDump::print_debug_document` (`src/lib.rs` lines 150–161): header,
then one `print_debug_item` per element pair yielded by the codec's lazy
iterator; an iteration error (`element?`) aborts after the elements already
yielded. -/
def printDebugDocument (elems : List (String × RawBsonRef)) (iterErr : Option String)
    (span : Nat) (indent_level : Nat) : List String × Option String :=
  let walked := printDebugDocElems elems indent_level
  match walked with
  | (chunks, some e) => (printNewObjectHeader span indent_level ++ chunks, some e)
  | (chunks, none) => (printNewObjectHeader span indent_level ++ chunks, iterErr)
termination_by sizeOf elems + 1

/-- The element loop of `print_debug_document`. -/
def printDebugDocElems (elems : List (String × RawBsonRef)) (indent_level : Nat) :
    List String × Option String :=
  match elems with
  | [] => ([], none)
  | (name, bson_ref) :: rest =>
    match printDebugItem name bson_ref indent_level with
    | (chunks, some e) => (chunks, some e)
    | (chunks, none) =>
      let tail := printDebugDocElems rest indent_level
      (chunks ++ tail.1, tail.2)
termination_by sizeOf elems

/-- `BsonDump::print_debug_array` (`src/lib.rs` lines 140–148): header, then
one `print_debug_item` per element with `enumerate` index as the name. -/
def printDebugArray (elems : List RawBsonRef) (iterErr : Option String)
    (span : Nat) (indent_level : Nat) : List String × Option String :=
  let walked := printDebugArrayElems elems 0 indent_level
  match walked with
  | (chunks, some e) => (printNewObjectHeader span indent_level ++ chunks, some e)
  | (chunks, none) => (printNewObjectHeader span indent_level ++ chunks, iterErr)
termination_by sizeOf elems + 1

/-- The element loop of `print_debug_array`; `i` is the `enumerate` index. -/
def printDebugArrayElems (elems : List RawBsonRef) (i : Nat) (indent_level : Nat) :
    List String × Option String :=
  match elems with
  | [] => ([], none)
  | bson_ref :: rest =>
    match printDebugItem (toString i) bson_ref indent_level with
    | (chunks, some e) => (chunks, some e)
    | (chunks, none) =>
      let tail := printDebugArrayElems rest (i + 1) indent_level
      (chunks ++ tail.1, tail.2)
termination_by sizeOf elems

end

/-!  Output-mode dispatcher (`src/lib.rs`).

A run returns the chunks written to the writer together with either the
final `num_found` (`Ok(self.num_found)`) or the `BsonDumpError` built by
`to_bsondump_error`: the `num_found` at the time of the failure paired with
`e.to_string()` (`src/lib.rs` lines 197–202).  The conversion of a raw
buffer to a JSON value (`bson::to_bson` / `into_canonical_extjson`) and the
two serializers live in external crates, so they are parameters: `to_bson`
decodes a buffer (an `Err` carries the message of the decode error), and a
successfully decoded value of type `J` is rendered by `renderCompact`
(the `Display` used by `writeln!`) or `renderPretty` (the tab-indented
serializer of `print_pretty_json`, which writes no trailing newline). -/

/-- The loop body of `BsonDump::print_json` (`src/lib.rs` lines 83–107) over
the item sequence: an `Err` item is fatal (`raw_document_buf?`); a failed
conversion is skipped unless `objcheck`; a converted value is written —
`writeln!` appends a newline in compact mode, the pretty serializer does
not — and then `num_found` is incremented. -/
def printJsonItems {J : Type} (is_pretty objcheck : Bool)
    (to_bson : List Nat → Except String J) (renderCompact renderPretty : J → String) :
    List (Except String (List Nat)) → Nat → List String →
      List String × Except (Nat × String) Nat
  | [], num_found, out => (out, Except.ok num_found)
  | Except.error e :: _, num_found, out => (out, Except.error (num_found, e))
  | Except.ok bytes :: restItems, num_found, out =>
    match to_bson bytes with
    | Except.error e =>
      if objcheck then (out, Except.error (num_found, e))
      else printJsonItems is_pretty objcheck to_bson renderCompact renderPretty
        restItems num_found out
    | Except.ok value =>
      printJsonItems is_pretty objcheck to_bson renderCompact renderPretty
        restItems (num_found + 1)
        (out ++ [if is_pretty then renderPretty value else renderCompact value ++ "\n"])

/-- `BsonDump::json` / `BsonDump::pretty_json`: run `print_json` over the
whole stream with `num_found` reset to 0 and an empty writer. -/
def printJsonRun {J : Type} (is_pretty objcheck : Bool)
    (to_bson : List Nat → Except String J) (renderCompact renderPretty : J → String)
    (s : List Nat) : List String × Except (Nat × String) Nat :=
  printJsonItems is_pretty objcheck to_bson renderCompact renderPretty
    (rawDocItems s) 0 []

/-- The loop body of `BsonDump::print_debug` (`src/lib.rs` lines 109–123)
over the item sequence.  `parse` is the external codec's lazy view of a
buffer as a document: its element sequence plus the error, if any, with
which iteration stops.  The top-level header size is the buffer's own byte
length (`RawDocument::count_bytes` is `as_bytes().len()`).  Chunks written
before a failure stay written; on failure `objcheck` decides between
aborting (`return Err`) and skipping (`continue`, without incrementing
`num_found`). -/
def printDebugItems (parse : List Nat → List (String × RawBsonRef) × Option String)
    (objcheck : Bool) :
    List (Except String (List Nat)) → Nat → List String →
      List String × Except (Nat × String) Nat
  | [], num_found, out => (out, Except.ok num_found)
  | Except.error e :: _, num_found, out => (out, Except.error (num_found, e))
  | Except.ok bytes :: restItems, num_found, out =>
    let parsed := parse bytes
    match printDebugDocument parsed.1 parsed.2 bytes.length 0 with
    | (chunks, some e) =>
      if objcheck then (out ++ chunks, Except.error (num_found, e))
      else printDebugItems parse objcheck restItems num_found (out ++ chunks)
    | (chunks, none) =>
      printDebugItems parse objcheck restItems (num_found + 1) (out ++ chunks)

/-- `BsonDump::debug`: run `print_debug` over the whole stream. -/
def printDebugRun (parse : List Nat → List (String × RawBsonRef) × Option String)
    (objcheck : Bool) (s : List Nat) : List String × Except (Nat × String) Nat :=
  printDebugItems parse objcheck (rawDocItems s) 0 []

/-- The Size Accountant's per-type table as the specification words it
(§4.2): a second definition written from the spec's words, to be compared
with `countBytes`, which is translated from `src/bsondump.rs`. -/
def sizeAccountantSpec : RawBsonRef → Nat
  | RawBsonRef.Double => 8
  | RawBsonRef.DateTime => 8
  | RawBsonRef.Int64 => 8
  | RawBsonRef.Timestamp => 8
  | RawBsonRef.Int32 => 4
  | RawBsonRef.Boolean => 1
  | RawBsonRef.Null => 0
  | RawBsonRef.Undefined => 0
  | RawBsonRef.MinKey => 0
  | RawBsonRef.MaxKey => 0
  | RawBsonRef.ObjectId => 12
  | RawBsonRef.Decimal128 => 16
  | RawBsonRef.Str s => 4 + s.utf8ByteSize + 1
  | RawBsonRef.Symbol s => 4 + s.utf8ByteSize + 1
  | RawBsonRef.JavaScriptCode code => 4 + code.utf8ByteSize + 1
  | RawBsonRef.Document _ _ span => span
  | RawBsonRef.Array _ _ span => span
  | RawBsonRef.Binary payloadLen => 4 + 1 + payloadLen
  | RawBsonRef.JavaScriptCodeWithScope code scopeSpan =>
      (4 + code.utf8ByteSize + 1) + scopeSpan
  | RawBsonRef.RegularExpression pattern options =>
      (4 + pattern.utf8ByteSize + 1) + (4 + options.utf8ByteSize + 1)
  | RawBsonRef.DbPointer => 17

/-- A model codec for concrete runs: only the minimal empty document
`05 00 00 00 00` converts to a JSON value (it has no fields to carry, so the
value type is `Unit`); every other buffer fails conversion, as `bson::to_bson`
does on buffers with corrupt element content. -/
def toBsonEmptyOnly : List Nat → Except String Unit := fun bytes =>
  if bytes = [5, 0, 0, 0, 0] then Except.ok () else Except.error "invalid element"

/-- Rendering the empty document's JSON value: both the `Display` used in
compact mode and the tab-indented pretty serializer print it as two braces,
and neither appends a newline itself. -/
def renderEmptyDoc : Unit → String := fun _ => "\x7b\x7d"

/-- A model codec view for concrete debug runs: the minimal empty document
parses to no elements; any other buffer yields one double field named `x`
and then stops with an iteration error, as the codec's lazy iterator does on
corrupt element content. -/
def parseModel : List Nat → List (String × RawBsonRef) × Option String := fun bytes =>
  if bytes = [5, 0, 0, 0, 0] then ([], none)
  else ([("x", RawBsonRef.Double)], some "corrupt element")

/-!  Helper lemmas on the machine-integer arithmetic of the reader. -/

/-- Four bytes decode to an `i32` value in the signed 32-bit range. -/
theorem i32FromLeBytes_bounds (b0 b1 b2 b3 : Nat)
    (h0 : b0 < 256) (h1 : b1 < 256) (h2 : b2 < 256) (h3 : b3 < 256) :
    -2147483648 ≤ i32FromLeBytes b0 b1 b2 b3 ∧ i32FromLeBytes b0 b1 b2 b3 < 2147483648 := by
  simp only [i32FromLeBytes]
  split <;> constructor <;> push_cast <;> omega

/-- The `as usize` cast is the identity on nonnegative values. -/
theorem usizeOfI32_of_nonneg (i : Int) (h : 0 ≤ i) : (usizeOfI32 i : Int) = i := by
  unfold usizeOfI32
  rw [if_pos h]
  omega

/-- The `as usize` cast sends any negative `i32` far above `MAX_BSON_SIZE`. -/
theorem usizeOfI32_of_neg (i : Int) (hneg : i < 0) (hge : -2147483648 ≤ i) :
    MAX_BSON_SIZE < usizeOfI32 i := by
  unfold usizeOfI32 MAX_BSON_SIZE
  rw [if_neg (by omega)]
  omega

/-- Claim C4: the Size Accountant is a pure function from a decoded value to
a byte count matching the spec's per-type table — double/datetime/int64/
timestamp 8, int32 4, boolean 1, null/undefined/min key/max key 0, object id
12, decimal128 16, string/symbol/code `4 + UTF-8 length + 1`, binary
`4 + 1 + payload`, document/array their own raw span length, code-with-scope
string size of the code plus the scope's span; a regular expression is sized
as string-with-terminator for both pattern and options, and a db pointer as
the string size of an empty string plus 12, i.e. 17. -/
theorem C4_size_accountant_matches_table :
    ∀ v : RawBsonRef, countBytes v = sizeAccountantSpec v := by
  intro v
  cases v <;> rfl

/-- Claim C5: every field the debug renderer emits reports a total size of
`1 (type tag) + (name UTF-8 length + 1 terminator) + value size`; in
particular the single field of the document with one field `a` holding the
string `hi` reports size 10. -/
theorem C5_debug_field_total_size :
    (∀ (name : String) (v : RawBsonRef) (ind : Nat),
      ∃ tail : List String × Option String,
        printDebugItem name v ind =
          ((getIndent (ind + 2) ++ name ++ "\n") ::
            (getIndent (ind + 3) ++ "type: " ++ padLeft4 (toString (elementTypeU8 v)) ++
              " size: " ++ toString (1 + (name.utf8ByteSize + 1) + countBytes v) ++ "\n") ::
            tail.1, tail.2))
    ∧ printDebugDocument [("a", RawBsonRef.Str "hi")] none 15 0 =
        (["--- new object ---\n", "\tsize : 15\n", "\t\ta\n", "\t\t\ttype:    2 size: 10\n"],
          none) := by
  constructor
  · intro name v ind
    cases v
    case Document elems iterErr span =>
      exact ⟨printDebugDocument elems iterErr span (ind + 3), by simp [printDebugItem]⟩
    case Array elems iterErr span =>
      exact ⟨printDebugArray elems iterErr span (ind + 3), by simp [printDebugItem]⟩
    all_goals exact ⟨([], none), by simp [printDebugItem]⟩
  · simp [printDebugDocument, printDebugDocElems, printDebugItem, printNewObjectHeader,
      getIndent, padLeft4, countBytes, strCountBytes, elementTypeU8]
    decide

/-- Claim C9: an empty container still emits its new-object header line and
its size line with zero field lines beneath them; the minimal empty document
`05 00 00 00 00` is accepted by the reader and codec, and a debug run over
it emits exactly a header with size 5 and no field lines. -/
theorem C9_empty_container_header :
    (∀ (iterErr : Option String) (span ind : Nat),
      printDebugDocument [] iterErr span ind = (printNewObjectHeader span ind, iterErr))
    ∧ (∀ (iterErr : Option String) (span ind : Nat),
      printDebugArray [] iterErr span ind = (printNewObjectHeader span ind, iterErr))
    ∧ (∀ span ind : Nat, printNewObjectHeader span ind =
        [getIndent ind ++ "--- new object ---" ++ "\n",
         getIndent (ind + 1) ++ "size : " ++ toString span ++ "\n"])
    ∧ rawDocItems [5, 0, 0, 0, 0] = [Except.ok [5, 0, 0, 0, 0]]
    ∧ printDebugRun parseModel false [5, 0, 0, 0, 0] =
        (["--- new object ---\n", "\tsize : 5\n"], Except.ok 1) := by
  refine ⟨?_, ?_, fun span ind => rfl, by decide, ?_⟩
  · intro iterErr span ind
    simp [printDebugDocument, printDebugDocElems]
  · intro iterErr span ind
    simp [printDebugArray, printDebugArrayElems]
  · have h : rawDocItems [5, 0, 0, 0, 0] = [Except.ok [5, 0, 0, 0, 0]] := by decide
    simp only [printDebugRun, h]
    simp [printDebugItems, parseModel, printDebugDocument, printDebugDocElems,
      printNewObjectHeader, getIndent]
    decide

/-- Claim C3 (counterexample): a source holding exactly one byte is
exhausted partway through the 4-byte length read, yet the reader ends the
sequence cleanly (`None`) instead of yielding a fatal read error. -/
theorem C3_counterexample :
    ([5] : List Nat).length = 1 ∧ nextRawDoc [5] = NextItem.eos := by
  decide

/-- Claim C3 (amended): the record reader ends the sequence cleanly exactly
when fewer than 4 bytes remain before the length read — whether 0 or 1–3
bytes were available; with at least 4 bytes available it never ends cleanly.
(Only a non-end-of-stream I/O failure of the underlying source, which a
finite in-memory stream cannot produce, yields a fatal read error there.) -/
theorem C3_clean_end_iff_short_header (s : List Nat) :
    nextRawDoc s = NextItem.eos ↔ s.length < 4 := by
  match s with
  | [] => simp [nextRawDoc]
  | [a] => simp [nextRawDoc]
  | [a, b] => simp [nextRawDoc]
  | [a, b, c] => simp [nextRawDoc]
  | a :: b :: c :: d :: t =>
    simp only [nextRawDoc, List.length_cons]
    constructor
    · intro h
      split at h
      · exact nomatch h
      · split at h
        · exact nomatch h
        · split at h
          · exact nomatch h
          · exact nomatch h
    · intro h
      omega

/-- Witness for C3 (amended) at concrete streams: the empty stream and a
complete 5-byte empty document, one below and one above the 4-byte line. -/
theorem C3_witness :
    (nextRawDoc [] = NextItem.eos ↔ ([] : List Nat).length < 4) ∧
    (nextRawDoc [5, 0, 0, 0, 0] = NextItem.eos ↔ ([5, 0, 0, 0, 0] : List Nat).length < 4) :=
  ⟨C3_clean_end_iff_short_header [], C3_clean_end_iff_short_header [5, 0, 0, 0, 0]⟩

/-- Claim C1: whenever the first 4 bytes decode (as a signed little-endian
32-bit integer) to a declared length below 5 or above `MAX_BSON_SIZE`, the
reader yields a `BsonSizeError` without reading any body byte (the stream
after the error is exactly the stream after the 4-byte length field); the
error carries the offending size as the code reports it (`as usize`, the
identity for nonnegative declared lengths), its `Display` prints both the
configured maximum and that size, and the message distinguishes the
too-small case (`Too small nelly`, exactly the declared lengths in `[0,5)`)
from the too-large case (`Woah nelly`, negative or above-maximum declared
lengths). -/
theorem C1_size_bound_rejection (b0 b1 b2 b3 : Nat) (rest : List Nat)
    (h0 : b0 < 256) (h1 : b1 < 256) (h2 : b2 < 256) (h3 : b3 < 256)
    (declared : Int) (reported : Nat)
    (hdecl : declared = i32FromLeBytes b0 b1 b2 b3)
    (hrep : reported = usizeOfI32 declared)
    (hout : declared < 5 ∨ (MAX_BSON_SIZE : Int) < declared) :
    nextRawDoc (b0 :: b1 :: b2 :: b3 :: rest) =
      NextItem.sizeError reported
        (if reported < MIN_BSON_SIZE then "Too small nelly" else "Woah nelly") rest
    ∧ (0 ≤ declared → (reported : Int) = declared)
    ∧ (reported < MIN_BSON_SIZE ↔ 0 ≤ declared ∧ declared < 5)
    ∧ (MAX_BSON_SIZE < reported ↔ (declared < 0 ∨ (MAX_BSON_SIZE : Int) < declared))
    ∧ (reported < MIN_BSON_SIZE ∨ MAX_BSON_SIZE < reported)
    ∧ (∀ message, bsonSizeErrorDisplay reported message =
        "(" ++ toString MAX_BSON_SIZE ++ ", " ++ toString reported ++ ", " ++ message ++ ")") := by
  subst hdecl
  subst hrep
  obtain ⟨hge, hlt⟩ := i32FromLeBytes_bounds b0 b1 b2 b3 h0 h1 h2 h3
  have hM : MAX_BSON_SIZE = 16793600 := rfl
  have hMin : MIN_BSON_SIZE = 5 := rfl
  rcases le_or_lt 0 (i32FromLeBytes b0 b1 b2 b3) with hd0 | hd0
  · have hn_eq : (usizeOfI32 (i32FromLeBytes b0 b1 b2 b3) : Int) = i32FromLeBytes b0 b1 b2 b3 :=
      usizeOfI32_of_nonneg _ hd0
    rcases hout with hlt5 | hgtM
    · have hsmall : usizeOfI32 (i32FromLeBytes b0 b1 b2 b3) < MIN_BSON_SIZE := by omega
      refine ⟨?_, fun _ => hn_eq, by omega, by omega, Or.inl hsmall, fun message => rfl⟩
      simp only [nextRawDoc, if_pos hsmall]
    · have hnotsmall : ¬ usizeOfI32 (i32FromLeBytes b0 b1 b2 b3) < MIN_BSON_SIZE := by omega
      have hbig : MAX_BSON_SIZE < usizeOfI32 (i32FromLeBytes b0 b1 b2 b3) := by omega
      refine ⟨?_, fun _ => hn_eq, by omega, by omega, Or.inr hbig, fun message => rfl⟩
      simp only [nextRawDoc, if_neg hnotsmall, if_pos hbig]
  · have hbig := usizeOfI32_of_neg _ hd0 hge
    have hnotsmall : ¬ usizeOfI32 (i32FromLeBytes b0 b1 b2 b3) < MIN_BSON_SIZE := by omega
    refine ⟨?_, fun h => absurd h (by omega), by omega, by omega, Or.inr hbig,
      fun message => rfl⟩
    simp only [nextRawDoc, if_neg hnotsmall, if_pos hbig]

/-- Witness for C1 at the concrete stream `03 00 00 00 07 07`: declared
length 3 is rejected as too small, with the two body bytes left unread. -/
theorem C1_witness :
    nextRawDoc [3, 0, 0, 0, 7, 7] = NextItem.sizeError 3 "Too small nelly" [7, 7] ∧
    bsonSizeErrorDisplay 3 "Too small nelly" = "(16793600, 3, Too small nelly)" := by
  have h := C1_size_bound_rejection 3 0 0 0 [7, 7] (by decide) (by decide) (by decide)
    (by decide) 3 3 (by decide) (by decide) (Or.inl (by decide))
  exact ⟨h.1, by decide⟩

/-- Claim C10: the reader's size handling is total and safe for every 4-byte
length field — declared lengths 0–4 are caught by the minimum-bound check, a
negative declared length is turned by the `as usize` cast into a value above
`MAX_BSON_SIZE` and caught by the maximum-bound check (no panic, no
allocation), and only when the declared length lies within `[5, MAX]` is a
body buffer of `declared - 4` bytes (never underflowing, never larger than
`MAX_BSON_SIZE - 4`) read; the four cases cover every possible value. -/
theorem C10_reader_total_safety (b0 b1 b2 b3 : Nat) (rest : List Nat)
    (h0 : b0 < 256) (h1 : b1 < 256) (h2 : b2 < 256) (h3 : b3 < 256)
    (declared : Int) (bodyLen : Nat)
    (hdecl : declared = i32FromLeBytes b0 b1 b2 b3)
    (hbody : bodyLen = usizeOfI32 declared - 4) :
    (0 ≤ declared ∧ declared < 5 →
      nextRawDoc (b0 :: b1 :: b2 :: b3 :: rest) =
        NextItem.sizeError (usizeOfI32 declared) "Too small nelly" rest)
    ∧ (declared < 0 →
      MAX_BSON_SIZE < usizeOfI32 declared ∧
      nextRawDoc (b0 :: b1 :: b2 :: b3 :: rest) =
        NextItem.sizeError (usizeOfI32 declared) "Woah nelly" rest)
    ∧ ((MAX_BSON_SIZE : Int) < declared →
      nextRawDoc (b0 :: b1 :: b2 :: b3 :: rest) =
        NextItem.sizeError (usizeOfI32 declared) "Woah nelly" rest)
    ∧ (5 ≤ declared ∧ declared ≤ (MAX_BSON_SIZE : Int) →
      1 ≤ bodyLen ∧ bodyLen ≤ MAX_BSON_SIZE - 4 ∧ 5 ≤ usizeOfI32 declared ∧
      nextRawDoc (b0 :: b1 :: b2 :: b3 :: rest) =
        (if rest.length < bodyLen then NextItem.ioError []
         else NextItem.docItem
           (fromBytesCheck (b0 :: b1 :: b2 :: b3 :: rest.take bodyLen))
           (rest.drop bodyLen)))
    ∧ ((0 ≤ declared ∧ declared < 5) ∨ declared < 0 ∨ (MAX_BSON_SIZE : Int) < declared ∨
        (5 ≤ declared ∧ declared ≤ (MAX_BSON_SIZE : Int))) := by
  subst hdecl
  subst hbody
  obtain ⟨hge, hlt⟩ := i32FromLeBytes_bounds b0 b1 b2 b3 h0 h1 h2 h3
  have hM : MAX_BSON_SIZE = 16793600 := rfl
  have hMin : MIN_BSON_SIZE = 5 := rfl
  refine ⟨?_, ?_, ?_, ?_, by omega⟩
  · rintro ⟨hd0, hd5⟩
    have hn_eq := usizeOfI32_of_nonneg _ hd0
    have hsmall : usizeOfI32 (i32FromLeBytes b0 b1 b2 b3) < MIN_BSON_SIZE := by omega
    simp only [nextRawDoc, if_pos hsmall]
  · intro hd0
    have hbig := usizeOfI32_of_neg _ hd0 hge
    have hnotsmall : ¬ usizeOfI32 (i32FromLeBytes b0 b1 b2 b3) < MIN_BSON_SIZE := by omega
    exact ⟨hbig, by simp only [nextRawDoc, if_neg hnotsmall, if_pos hbig]⟩
  · intro hdM
    have hn_eq := usizeOfI32_of_nonneg (i32FromLeBytes b0 b1 b2 b3) (by omega)
    have hnotsmall : ¬ usizeOfI32 (i32FromLeBytes b0 b1 b2 b3) < MIN_BSON_SIZE := by omega
    have hbig : MAX_BSON_SIZE < usizeOfI32 (i32FromLeBytes b0 b1 b2 b3) := by omega
    simp only [nextRawDoc, if_neg hnotsmall, if_pos hbig]
  · rintro ⟨hd5, hdM⟩
    have hn_eq := usizeOfI32_of_nonneg (i32FromLeBytes b0 b1 b2 b3) (by omega)
    have hnotsmall : ¬ usizeOfI32 (i32FromLeBytes b0 b1 b2 b3) < MIN_BSON_SIZE := by omega
    have hnotbig : ¬ MAX_BSON_SIZE < usizeOfI32 (i32FromLeBytes b0 b1 b2 b3) := by omega
    exact ⟨by omega, by omega, by omega,
      by simp only [nextRawDoc, if_neg hnotsmall, if_neg hnotbig]⟩

/-- Witness for C10 at the concrete length field `FF FF FF FF`: the declared
length is −1, the unsigned cast turns it into `2^64 − 1`, and the reader
rejects it through the maximum-bound check. -/
theorem C10_witness :
    usizeOfI32 (i32FromLeBytes 255 255 255 255) = 18446744073709551615 ∧
    MAX_BSON_SIZE < usizeOfI32 (i32FromLeBytes 255 255 255 255) ∧
    nextRawDoc [255, 255, 255, 255] =
      NextItem.sizeError (usizeOfI32 (i32FromLeBytes 255 255 255 255)) "Woah nelly" [] := by
  have h := C10_reader_total_safety 255 255 255 255 [] (by decide) (by decide) (by decide)
    (by decide) (i32FromLeBytes 255 255 255 255)
    (usizeOfI32 (i32FromLeBytes 255 255 255 255) - 4) rfl rfl
  have h2 := h.2.1 (by decide)
  exact ⟨by decide, h2.1, h2.2⟩

/-- A successful `mapM` over `Except` produces one result per input. -/
theorem mapM_ok_length {J : Type} (to_bson : List Nat → Except String J) :
    ∀ (docs : List (List Nat)) (js : List J),
      docs.mapM to_bson = Except.ok js → js.length = docs.length := by
  intro docs
  induction docs with
  | nil =>
    intro js h
    simp only [List.mapM_nil, pure, Except.pure] at h
    cases h
    rfl
  | cons d ds ih =>
    intro js h
    rw [List.mapM_cons] at h
    cases hd : to_bson d with
    | error e =>
      rw [hd] at h
      simp only [bind, Except.bind] at h
      exact absurd h (by simp)
    | ok j =>
      cases hds : ds.mapM to_bson with
      | error e =>
        rw [hd, hds] at h
        simp only [bind, Except.bind] at h
        exact absurd h (by simp)
      | ok js2 =>
        rw [hd, hds] at h
        simp only [bind, Except.bind, pure, Except.pure] at h
        injection h with h
        subst h
        simp [ih js2 hds]

/-- Running the JSON loop over items that are all `Ok` buffers, all of which
convert, writes one rendered chunk (with the `writeln!` newline) per
document in order and counts each one. -/
theorem printJsonItems_all_ok {J : Type} (objcheck : Bool)
    (to_bson : List Nat → Except String J) (rc rp : J → String) :
    ∀ (docs : List (List Nat)) (js : List J),
      docs.mapM to_bson = Except.ok js →
      ∀ (num_found : Nat) (out : List String),
        printJsonItems false objcheck to_bson rc rp (docs.map Except.ok) num_found out =
          (out ++ js.map (fun j => rc j ++ "\n"), Except.ok (num_found + docs.length)) := by
  intro docs
  induction docs with
  | nil =>
    intro js h num_found out
    simp only [List.mapM_nil, pure, Except.pure] at h
    cases h
    simp [printJsonItems]
  | cons d ds ih =>
    intro js h num_found out
    rw [List.mapM_cons] at h
    cases hd : to_bson d with
    | error e =>
      rw [hd] at h
      simp only [bind, Except.bind] at h
      exact absurd h (by simp)
    | ok j =>
      cases hds : ds.mapM to_bson with
      | error e =>
        rw [hd, hds] at h
        simp only [bind, Except.bind] at h
        exact absurd h (by simp)
      | ok js2 =>
        rw [hd, hds] at h
        simp only [bind, Except.bind, pure, Except.pure] at h
        injection h with h
        subst h
        simp only [List.map_cons, printJsonItems, hd]
        rw [show (if false = true then rp j else rc j ++ "\n") = rc j ++ "\n" from rfl,
          ih js2 hds (num_found + 1) (out ++ [rc j ++ "\n"])]
        simp [List.append_assoc]
        omega

/-- Claim C8: for every input stream whose reader yields exactly `N`
well-formed documents, all of which convert to JSON, JSON mode writes
exactly `N` chunks — one rendered document each, terminated by the
`writeln!` newline, in stream order — and returns a processed count of `N`
(for either setting of objcheck). -/
theorem C8_json_mode_line_per_document {J : Type} (objcheck : Bool)
    (to_bson : List Nat → Except String J) (rc rp : J → String)
    (s : List Nat) (docs : List (List Nat)) (js : List J)
    (hitems : rawDocItems s = docs.map Except.ok)
    (hdec : docs.mapM to_bson = Except.ok js) :
    printJsonRun false objcheck to_bson rc rp s =
      (js.map (fun j => rc j ++ "\n"), Except.ok docs.length) ∧
    js.length = docs.length := by
  constructor
  · have h := printJsonItems_all_ok objcheck to_bson rc rp docs js hdec 0 []
    simp only [printJsonRun, hitems, h, List.nil_append, Nat.zero_add]
  · exact mapM_ok_length to_bson docs js hdec

/-- Witness for C8 at three back-to-back minimal empty documents: three
chunks, each the two braces and a newline, and a processed count of 3. -/
theorem C8_witness :
    printJsonRun false false toBsonEmptyOnly renderEmptyDoc renderEmptyDoc
        ([5, 0, 0, 0, 0] ++ [5, 0, 0, 0, 0] ++ [5, 0, 0, 0, 0]) =
      (["\x7b\x7d\n", "\x7b\x7d\n", "\x7b\x7d\n"], Except.ok 3) := by
  have h := C8_json_mode_line_per_document false toBsonEmptyOnly renderEmptyDoc renderEmptyDoc
    ([5, 0, 0, 0, 0] ++ [5, 0, 0, 0, 0] ++ [5, 0, 0, 0, 0])
    [[5, 0, 0, 0, 0], [5, 0, 0, 0, 0], [5, 0, 0, 0, 0]] [(), (), ()]
    (by decide) (by decide)
  simpa [renderEmptyDoc] using h.1

/-- Claim C2 (counterexample): with objcheck disabled, a stream holding a
valid document, a structurally corrupt document (its trailing byte is 9, not
the null terminator), and a valid document does not yield both valid
documents with a processed count of 2: the codec's rejection arrives as an
`Err` item of the iterator, which `print_json` propagates with `?` before
the objcheck test, so the run aborts after the first document with count 1. -/
theorem C2_counterexample :
    printJsonRun false false toBsonEmptyOnly renderEmptyDoc renderEmptyDoc
        ([5, 0, 0, 0, 0] ++ [5, 0, 0, 0, 9] ++ [5, 0, 0, 0, 0]) =
      (["\x7b\x7d\n"], Except.error (1, "document not null terminated")) ∧
    (printJsonRun false false toBsonEmptyOnly renderEmptyDoc renderEmptyDoc
        ([5, 0, 0, 0, 0] ++ [5, 0, 0, 0, 9] ++ [5, 0, 0, 0, 0])).2 ≠ Except.ok 2 := by
  constructor <;> decide

/-- Claim C2 (amended): with objcheck disabled, a document whose buffer the
codec accepts but whose conversion to JSON fails is silently skipped and
processing continues with the next document; for a stream whose reader
yields a valid document, a conversion-failing document, and a valid
document, both valid documents are output and the processed count is 2.
(A document failing the codec's structural validation instead surfaces as an
iterator error, which is fatal regardless of objcheck.) -/
theorem C2_skip_on_decode_failure {J : Type}
    (to_bson : List Nat → Except String J) (rc rp : J → String)
    (s : List Nat) (d1 d2 d3 : List Nat) (j1 j3 : J) (e : String)
    (hitems : rawDocItems s = [Except.ok d1, Except.ok d2, Except.ok d3])
    (h1 : to_bson d1 = Except.ok j1)
    (h2 : to_bson d2 = Except.error e)
    (h3 : to_bson d3 = Except.ok j3) :
    printJsonRun false false to_bson rc rp s =
      ([rc j1 ++ "\n", rc j3 ++ "\n"], Except.ok 2) := by
  simp [printJsonRun, hitems, printJsonItems, h1, h2, h3]

/-- Witness for C2 (amended) at a concrete stream: empty document, a
framing-valid 8-byte document the model codec cannot convert, empty
document; both empty documents are printed and the count is 2. -/
theorem C2_witness :
    printJsonRun false false toBsonEmptyOnly renderEmptyDoc renderEmptyDoc
        ([5, 0, 0, 0, 0] ++ [8, 0, 0, 0, 0, 0, 0, 0] ++ [5, 0, 0, 0, 0]) =
      (["\x7b\x7d\n", "\x7b\x7d\n"], Except.ok 2) := by
  have h := C2_skip_on_decode_failure toBsonEmptyOnly renderEmptyDoc renderEmptyDoc
    ([5, 0, 0, 0, 0] ++ [8, 0, 0, 0, 0, 0, 0, 0] ++ [5, 0, 0, 0, 0])
    [5, 0, 0, 0, 0] [8, 0, 0, 0, 0, 0, 0, 0] [5, 0, 0, 0, 0] () () "invalid element"
    (by decide) (by decide) (by decide) (by decide)
  simpa [renderEmptyDoc] using h

/-- The debug loop on a cleanly-rendering prefix followed by a document
whose rendering stops with an iteration error, with objcheck enabled: the
failing document's already-written chunks stay in the output, the error
carries the processed count before the failure, and the items after the
failing one never influence the result. -/
theorem printDebugItems_fatal (parse : List Nat → List (String × RawBsonRef) × Option String)
    (bad : List Nat) (restItems : List (Except String (List Nat))) (msg : String)
    (hbad : (printDebugDocument (parse bad).1 (parse bad).2 bad.length 0).2 = some msg) :
    ∀ ds : List (List Nat),
      (∀ d ∈ ds, (printDebugDocument (parse d).1 (parse d).2 d.length 0).2 = none) →
      ∀ (num_found : Nat) (out : List String),
        printDebugItems parse true (ds.map Except.ok ++ Except.ok bad :: restItems)
            num_found out =
          (out ++
              (ds.map fun d =>
                (printDebugDocument (parse d).1 (parse d).2 d.length 0).1).flatten
              ++ (printDebugDocument (parse bad).1 (parse bad).2 bad.length 0).1,
            Except.error (num_found + ds.length, msg)) := by
  intro ds
  induction ds with
  | nil =>
    intro _ num_found out
    rcases hX : printDebugDocument (parse bad).1 (parse bad).2 bad.length 0 with ⟨chunks, err⟩
    rw [hX] at hbad
    simp only at hbad
    subst hbad
    simp [printDebugItems, hX]
  | cons d ds ih =>
    intro hclean num_found out
    have hd := hclean d (by simp)
    rcases hX : printDebugDocument (parse d).1 (parse d).2 d.length 0 with ⟨chunks, err⟩
    rw [hX] at hd
    simp only at hd
    subst hd
    simp only [List.map_cons, List.cons_append, printDebugItems, hX, List.append_eq]
    rw [ih (fun x hx => hclean x (List.mem_cons_of_mem _ hx)) (num_found + 1) (out ++ chunks)]
    simp [hX, List.append_assoc]
    omega

/-- Claim C6 (amended): when a run ends with a fatal error, the returned
error bundles exactly the count of documents successfully processed before
the failure together with the error message, and no further documents are
attempted (the conclusion is independent of the items past the failing
one); the primary output stream holds the successfully rendered documents
followed by the chunks of the failing document that were already written
before the failure — in debug mode this includes partial output of the
failed document. -/
theorem C6_error_bundles_count
    (parse : List Nat → List (String × RawBsonRef) × Option String)
    (ds : List (List Nat)) (bad : List Nat)
    (restItems : List (Except String (List Nat))) (msg : String) (s : List Nat)
    (hitems : rawDocItems s = ds.map Except.ok ++ Except.ok bad :: restItems)
    (hclean : ∀ d ∈ ds, (printDebugDocument (parse d).1 (parse d).2 d.length 0).2 = none)
    (hbad : (printDebugDocument (parse bad).1 (parse bad).2 bad.length 0).2 = some msg) :
    printDebugRun parse true s =
      ((ds.map fun d => (printDebugDocument (parse d).1 (parse d).2 d.length 0).1).flatten
          ++ (printDebugDocument (parse bad).1 (parse bad).2 bad.length 0).1,
        Except.error (ds.length, msg)) := by
  have h := printDebugItems_fatal parse bad restItems msg hbad ds hclean 0 []
  simpa [printDebugRun, hitems] using h

/-- Witness for C6 (amended) at a concrete stream: after one cleanly
rendered empty document, the second document's iteration fails; the output
keeps the first document's block plus the partial block of the failed
document, and the error carries count 1 with the message. -/
theorem C6_witness :
    printDebugRun parseModel true ([5, 0, 0, 0, 0] ++ [8, 0, 0, 0, 0, 0, 0, 0]) =
      (["--- new object ---\n", "\tsize : 5\n",
        "--- new object ---\n", "\tsize : 8\n", "\t\tx\n", "\t\t\ttype:    1 size: 11\n"],
        Except.error (1, "corrupt element")) := by
  have h := C6_error_bundles_count parseModel [[5, 0, 0, 0, 0]] [8, 0, 0, 0, 0, 0, 0, 0] []
    "corrupt element" ([5, 0, 0, 0, 0] ++ [8, 0, 0, 0, 0, 0, 0, 0])
    (by decide)
    (by
      intro d hd
      simp only [List.mem_singleton] at hd
      subst hd
      simp [parseModel, printDebugDocument, printDebugDocElems, printNewObjectHeader])
    (by simp [parseModel, printDebugDocument, printDebugDocElems, printDebugItem,
      printNewObjectHeader])
  rw [h]
  simp [parseModel, printDebugDocument, printDebugDocElems, printDebugItem,
    printNewObjectHeader, getIndent, padLeft4, countBytes, elementTypeU8]
  all_goals decide

/-- Claim C6 (counterexample): the primary output does not consist only of
successfully rendered documents — with objcheck enabled and a second
document failing mid-iteration, the chunks of the failed document written
before the failure (its header, size line and first field) are part of the
output when the run aborts. -/
theorem C6_counterexample :
    printDebugRun parseModel true
        ([5, 0, 0, 0, 0] ++ [5, 0, 0, 0, 0] ++ [8, 0, 0, 0, 0, 0, 0, 0]) =
      (["--- new object ---\n", "\tsize : 5\n", "--- new object ---\n", "\tsize : 5\n",
        "--- new object ---\n", "\tsize : 8\n", "\t\tx\n", "\t\t\ttype:    1 size: 11\n"],
        Except.error (2, "corrupt element")) ∧
    (printDebugRun parseModel true
        ([5, 0, 0, 0, 0] ++ [5, 0, 0, 0, 0] ++ [8, 0, 0, 0, 0, 0, 0, 0])).1 ≠
      ["--- new object ---\n", "\tsize : 5\n", "--- new object ---\n", "\tsize : 5\n"] := by
  have hitems : rawDocItems ([5, 0, 0, 0, 0] ++ [5, 0, 0, 0, 0] ++ [8, 0, 0, 0, 0, 0, 0, 0]) =
      [Except.ok [5, 0, 0, 0, 0], Except.ok [5, 0, 0, 0, 0],
        Except.ok [8, 0, 0, 0, 0, 0, 0, 0]] := by decide
  have hrun : printDebugRun parseModel true
      ([5, 0, 0, 0, 0] ++ [5, 0, 0, 0, 0] ++ [8, 0, 0, 0, 0, 0, 0, 0]) =
      (["--- new object ---\n", "\tsize : 5\n", "--- new object ---\n", "\tsize : 5\n",
        "--- new object ---\n", "\tsize : 8\n", "\t\tx\n", "\t\t\ttype:    1 size: 11\n"],
        Except.error (2, "corrupt element")) := by
    simp only [printDebugRun, hitems]
    simp [printDebugItems, parseModel, printDebugDocument, printDebugDocElems,
      printDebugItem, printNewObjectHeader, getIndent, padLeft4, countBytes, elementTypeU8]
    all_goals decide
  refine ⟨hrun, ?_⟩
  rw [hrun]
  decide

/-- Claim C7 (code divergence): in pretty-JSON mode `print_json` never
calls `writeln!` — the serializer's chunk is written with no following
newline — so consecutive documents are concatenated without a separator:
two empty documents produce the two chunks of braces and the joined output
holds no newline character anywhere. -/
theorem C7_pretty_no_newline :
    printJsonRun true false toBsonEmptyOnly renderEmptyDoc renderEmptyDoc
        ([5, 0, 0, 0, 0] ++ [5, 0, 0, 0, 0]) =
      (["\x7b\x7d", "\x7b\x7d"], Except.ok 2) ∧
    String.join (printJsonRun true false toBsonEmptyOnly renderEmptyDoc renderEmptyDoc
        ([5, 0, 0, 0, 0] ++ [5, 0, 0, 0, 0])).1 = "\x7b\x7d\x7b\x7d" ∧
    ("\x7b\x7d\x7b\x7d").data.all (fun c => c != Char.ofNat 10) = true := by
  refine ⟨by decide, by decide, by decide⟩

end BsonDump
